import Mathlib

/-!
Shallow embedding of the streaming ingestion client in `src/okx.py`
(classes `RollingJsonWriter` and `OkxPublicWSClient`), together with
theorems checking the natural-language specification against it.

Modelling conventions:
* JSON values (the result of `json.loads`) are the inductive `JValue`;
  an unparseable inbound frame is modelled as `none : Option JValue`.
* Python exceptions are modelled with `Except String`: a function that can
  raise returns `Except String α`, and `.error s` is a raised exception.
* The buffer store `self._buffers` (a Python dict, insertion ordered) is an
  association list from `BufferKey` to the ordered list of envelopes.
* File writes performed by `flush_buffers` are modelled as a list of
  `WriteEvent`s; the environment decides success of a write through a
  `writeOk : String → Bool` oracle (the `except Exception` branch fires
  exactly when `writeOk path = false`).
* Wall-clock readings (`time.time()`, `datetime.now`) and the `strftime`
  timestamp rendering are inputs/parameters of the model.
-/

set_option autoImplicit false

namespace OkxSpider

/-- A JSON value as produced by Python's `json.loads`: `null`/`None`,
booleans, numbers, strings, arrays, and objects (dicts with unique keys,
insertion ordered). -/
inductive JValue where
  | null
  | bool (b : Bool)
  | num (n : Int)
  | str (s : String)
  | arr (xs : List JValue)
  | obj (fields : List (String × JValue))

mutual

/-- Decidable equality on JSON values (the deriving handler does not support
this nested inductive). -/
def decEqJ : (a b : JValue) → Decidable (a = b)
  | .null, .null => isTrue rfl
  | .bool x, .bool y => decidable_of_iff (x = y) (by simp)
  | .num x, .num y => decidable_of_iff (x = y) (by simp)
  | .str x, .str y => decidable_of_iff (x = y) (by simp)
  | .arr xs, .arr ys =>
      have : Decidable (xs = ys) := decEqJList xs ys
      decidable_of_iff (xs = ys) (by simp)
  | .obj fs, .obj gs =>
      have : Decidable (fs = gs) := decEqJFields fs gs
      decidable_of_iff (fs = gs) (by simp)
  | .null, .bool _ => isFalse (fun h => JValue.noConfusion h)
  | .null, .num _ => isFalse (fun h => JValue.noConfusion h)
  | .null, .str _ => isFalse (fun h => JValue.noConfusion h)
  | .null, .arr _ => isFalse (fun h => JValue.noConfusion h)
  | .null, .obj _ => isFalse (fun h => JValue.noConfusion h)
  | .bool _, .null => isFalse (fun h => JValue.noConfusion h)
  | .bool _, .num _ => isFalse (fun h => JValue.noConfusion h)
  | .bool _, .str _ => isFalse (fun h => JValue.noConfusion h)
  | .bool _, .arr _ => isFalse (fun h => JValue.noConfusion h)
  | .bool _, .obj _ => isFalse (fun h => JValue.noConfusion h)
  | .num _, .null => isFalse (fun h => JValue.noConfusion h)
  | .num _, .bool _ => isFalse (fun h => JValue.noConfusion h)
  | .num _, .str _ => isFalse (fun h => JValue.noConfusion h)
  | .num _, .arr _ => isFalse (fun h => JValue.noConfusion h)
  | .num _, .obj _ => isFalse (fun h => JValue.noConfusion h)
  | .str _, .null => isFalse (fun h => JValue.noConfusion h)
  | .str _, .bool _ => isFalse (fun h => JValue.noConfusion h)
  | .str _, .num _ => isFalse (fun h => JValue.noConfusion h)
  | .str _, .arr _ => isFalse (fun h => JValue.noConfusion h)
  | .str _, .obj _ => isFalse (fun h => JValue.noConfusion h)
  | .arr _, .null => isFalse (fun h => JValue.noConfusion h)
  | .arr _, .bool _ => isFalse (fun h => JValue.noConfusion h)
  | .arr _, .num _ => isFalse (fun h => JValue.noConfusion h)
  | .arr _, .str _ => isFalse (fun h => JValue.noConfusion h)
  | .arr _, .obj _ => isFalse (fun h => JValue.noConfusion h)
  | .obj _, .null => isFalse (fun h => JValue.noConfusion h)
  | .obj _, .bool _ => isFalse (fun h => JValue.noConfusion h)
  | .obj _, .num _ => isFalse (fun h => JValue.noConfusion h)
  | .obj _, .str _ => isFalse (fun h => JValue.noConfusion h)
  | .obj _, .arr _ => isFalse (fun h => JValue.noConfusion h)

/-- Decidable equality on lists of JSON values. -/
def decEqJList : (a b : List JValue) → Decidable (a = b)
  | [], [] => isTrue rfl
  | [], _ :: _ => isFalse (by simp)
  | _ :: _, [] => isFalse (by simp)
  | x :: xs, y :: ys =>
      have h1 : Decidable (x = y) := decEqJ x y
      have h2 : Decidable (xs = ys) := decEqJList xs ys
      decidable_of_iff (x = y ∧ xs = ys) (by simp)

/-- Decidable equality on JSON object field lists. -/
def decEqJFields : (a b : List (String × JValue)) → Decidable (a = b)
  | [], [] => isTrue rfl
  | [], _ :: _ => isFalse (by simp)
  | _ :: _, [] => isFalse (by simp)
  | (k, v) :: fs, (l, w) :: gs =>
      have h1 : Decidable (v = w) := decEqJ v w
      have h2 : Decidable (fs = gs) := decEqJFields fs gs
      decidable_of_iff (k = l ∧ v = w ∧ fs = gs) (by simp [and_assoc])

end

instance : DecidableEq JValue := decEqJ

/-- Python truthiness of a JSON value: `None`, `False`, `0`, `""`, `[]`,
`{}` are falsy; everything else is truthy. Models `if not arg or not data`. -/
def truthy : JValue → Bool
  | .null => false
  | .bool b => b
  | .num n => n != 0
  | .str s => s != ""
  | .arr xs => !xs.isEmpty
  | .obj fs => !fs.isEmpty

/-- `dict.get(k)` on the field list of a JSON object: the value stored at
`k`, or `None` (`JValue.null`) when the key is absent. Note that a field
explicitly bound to JSON `null` and an absent field are indistinguishable,
exactly as in the Python code. -/
def lookupField (fs : List (String × JValue)) (k : String) : JValue :=
  match fs.find? (fun p => p.1 == k) with
  | some p => p.2
  | none => .null

/-- `v.get(k)` for an arbitrary value `v`: succeeds on a dict, raises
`AttributeError` on anything else (Python's `list`/`str`/`int`/`None`
have no `.get` method). -/
def pyGet : JValue → String → Except String JValue
  | .obj fs, k => .ok (lookupField fs k)
  | _, _ => .error "AttributeError"

/-- The dict key of one buffer entry: `(inst_id, channel)` as extracted by
`_handle_message` — each component is whatever `arg.get(...)` returned, so
it is an arbitrary JSON value (possibly `None`). -/
abbrev BufferKey := JValue × JValue

/-- One normalized record appended to a buffer by `_handle_message`
(the Python dict literal at lines 193–201 of `src/okx.py`). -/
structure Envelope where
  instId : JValue
  timestamp : String
  source : String
  channel : JValue
  data : JValue
  action : Option JValue
  deriving DecidableEq

/-- The buffer store `self._buffers`: a Python dict from `BufferKey` to a
list of envelopes, kept as an insertion-ordered association list. -/
abbrev Buffers := List (BufferKey × List Envelope)

/-- `key in buffers`. -/
def bufMem (bs : Buffers) (k : BufferKey) : Bool :=
  bs.any (fun p => p.1 == k)

/-- `buffers[key]` with default `[]` (the code only reads keys it has
ensured exist). -/
def bufGet (bs : Buffers) (k : BufferKey) : List Envelope :=
  match bs.find? (fun p => p.1 == k) with
  | some p => p.2
  | none => []

/-- `buffers[key] = v` for a key already present: update in place, keeping
dict order. -/
def bufSet (bs : Buffers) (k : BufferKey) (v : List Envelope) : Buffers :=
  bs.map (fun p => if p.1 == k then (p.1, v) else p)

/-- `self._buffers[key].append(payload)`. -/
def bufAppend (bs : Buffers) (k : BufferKey) (e : Envelope) : Buffers :=
  bufSet bs k (bufGet bs k ++ [e])

/-- Does a parsed message satisfy
`isinstance(msg, dict) and msg.get("event") in {"pong", "subscribe", "error"}`? -/
def isControlEvent : JValue → Bool
  | .obj fs =>
    match lookupField fs "event" with
    | .str s => s == "pong" || s == "subscribe" || s == "error"
    | _ => false
  | _ => false

/-- `OkxPublicWSClient._handle_message` (lines 170–203 of `src/okx.py`).
`msg?` is the result of `json.loads(raw)` (`none` when parsing raised),
`ts` is the formatted current UTC time, and the result is the new buffer
store, or `.error` when the Python code would raise (an `AttributeError`
from calling `.get` on a non-dict escapes `_handle_message`). -/
def handle_message (msg? : Option JValue) (ts : String) (buffers : Buffers) :
    Except String Buffers :=
  match msg? with
  | none => .ok buffers
  | some msg =>
    if isControlEvent msg then .ok buffers
    else
      match pyGet msg "arg", pyGet msg "data", pyGet msg "action" with
      | .ok arg, .ok data, .ok action =>
        if !truthy arg || !truthy data then .ok buffers
        else
          match pyGet arg "channel", pyGet arg "instId" with
          | .ok channel, .ok instId =>
            let key : BufferKey := (instId, channel)
            let buffers := if bufMem buffers key then buffers else buffers ++ [(key, [])]
            let payload : Envelope :=
              { instId := instId
                timestamp := ts
                source := "WS"
                channel := channel
                data := data
                action := if action = .null then none else some action }
            .ok (bufAppend buffers key payload)
          | _, _ => .error "AttributeError"
      | _, _, _ => .error "AttributeError"

/-! ### The rolling writer (`RollingJsonWriter`) -/

mutual

/-- Python `repr` of a JSON value, as used by f-string interpolation when a
list or dict element is rendered. Only the `str`/`null` cases are ever
reached by the claims; the rest mirror CPython's rendering. -/
def pyRepr : JValue → String
  | .null => "None"
  | .bool true => "True"
  | .bool false => "False"
  | .num n => toString n
  | .str s => "\x27" ++ s ++ "\x27"
  | .arr xs => "[" ++ pyReprList xs ++ "]"
  | .obj fs => "\x7b" ++ pyReprFields fs ++ "\x7d"

/-- `repr` of the elements of a Python list, comma separated. -/
def pyReprList : List JValue → String
  | [] => ""
  | [x] => pyRepr x
  | x :: y :: xs => pyRepr x ++ ", " ++ pyReprList (y :: xs)

/-- `repr` of the items of a Python dict, comma separated. -/
def pyReprFields : List (String × JValue) → String
  | [] => ""
  | [(k, v)] => "\x27" ++ k ++ "\x27: " ++ pyRepr v
  | (k, v) :: g :: fs => "\x27" ++ k ++ "\x27: " ++ pyRepr v ++ ", " ++ pyReprFields (g :: fs)

end

/-- Python `str()` of a JSON value, as used by f-string interpolation in
`_build_filename` (`f"{inst_id}_{channel}_{ts}.json"`): `None` renders as
`"None"`, strings render without quotes. -/
def pyStr : JValue → String
  | .null => "None"
  | .bool true => "True"
  | .bool false => "False"
  | .num n => toString n
  | .str s => s
  | .arr xs => pyRepr (.arr xs)
  | .obj fs => pyRepr (.obj fs)

/-- `RollingJsonWriter._build_filename` (lines 101–104 of `src/okx.py`).
`ts` is the already-rendered `time.strftime("%Y%m%dT%H%M%S", gmtime(ms/1000))`
string; the civil-time conversion itself is a stdlib call kept abstract
(passed in as `fmtTs` by `flush_buffers`). `os.path.join` with a relative
second component appends with a separator. -/
def build_filename (output_dir : String) (inst_id channel : JValue) (ts : String) : String :=
  output_dir ++ "/" ++ pyStr inst_id ++ "_" ++ pyStr channel ++ "_" ++ ts ++ ".json"

/-- One file write performed by `flush_buffers`: which buffer entry it came
from, the path handed to `open`, and the list serialized by `json.dump`. -/
structure WriteEvent where
  key : BufferKey
  path : String
  content : List Envelope
  deriving DecidableEq

/-- `RollingJsonWriter.flush_buffers` (lines 106–117 of `src/okx.py`).

* `fmtTs` models `time.strftime("%Y%m%dT%H%M%S", time.gmtime(now_ms / 1000))`;
* `writeOk path` models whether `open(path, "w")` + `json.dump` succeeds —
  when it is `false` the Python code lands in `except Exception:` and only
  prints the traceback;
* the `finally:` clause resets the entry to `[]` in both cases;
* entries with an empty list are skipped by `continue` and left as they are.

Returns the buffer store after the loop, and the successful file writes in
iteration (= dict insertion) order. -/
def flush_buffers (fmtTs : Int → String) (output_dir : String) (writeOk : String → Bool)
    (buffers : Buffers) (now_ms : Int) : Buffers × List WriteEvent :=
  match buffers with
  | [] => ([], [])
  | (k, messages) :: rest =>
    let r := flush_buffers fmtTs output_dir writeOk rest now_ms
    if messages.isEmpty then
      ((k, messages) :: r.1, r.2)
    else
      let path := build_filename output_dir k.1 k.2 (fmtTs now_ms)
      ((k, []) :: r.1, if writeOk path then ⟨k, path, messages⟩ :: r.2 else r.2)

/-! ### The connection manager (`OkxPublicWSClient.run_forever` / `_connect_once`) -/

/-- How one call to `_connect_once` with a non-empty subscription list plays
out, abstracting the transport:

* `connectFail` — an exception before or during connect/subscribe
  (`websockets.connect` refused, send failed): the subscribe handshake did
  not succeed;
* `subscribedThenError` — connect and the subscribe handshake succeeded,
  but the receive loop later raised (abnormal close, transport error), so
  `_connect_once` raises;
* `subscribedCleanClose` — connect and subscribe succeeded and the
  `async for` loop ended with a clean close, so `_connect_once` returns
  normally. -/
inductive Attempt where
  | connectFail
  | subscribedThenError
  | subscribedCleanClose
  deriving DecidableEq

/-- Does `_connect_once` raise for this attempt outcome? Any exception inside
the `async with` block propagates; only a clean end of the receive loop
returns normally. -/
def attemptRaises : Attempt → Bool
  | .subscribedCleanClose => false
  | .subscribedThenError => true
  | .connectFail => true

/-- Did the subscribe handshake succeed during this attempt? -/
def handshakeSucceeded : Attempt → Bool
  | .connectFail => false
  | .subscribedThenError => true
  | .subscribedCleanClose => true

/-- `OkxPublicWSClient._connect_once` (lines 205–218 of `src/okx.py`), with
the transport behaviour summarized by `a : Attempt`. The first statement is
`assert self._subscriptions, "未设置订阅频道"`: with an empty subscription
list it raises `AssertionError` before anything else happens. -/
def connect_once (subsNonempty : Bool) (a : Attempt) : Except String Unit :=
  if !subsNonempty then .error "AssertionError"
  else if attemptRaises a then .error "ConnectionError" else .ok ()

/-- The backoff sleeps performed by `OkxPublicWSClient.run_forever`
(lines 220–237 of `src/okx.py`) over a finite prefix of connection
attempts, starting from current delay `delay`. Each iteration runs
`_connect_once`; on normal return the delay is reset to the base delay; on
any exception (caught by the bare `except Exception:`) the loop sleeps
`delay` seconds — recorded in the returned list — and then doubles the
delay, capped at the max delay. Delays are rationals; every value reached
from the configured seconds (1.0, 30.0) is exact in binary floating point,
so `ℚ` arithmetic agrees with Python's `float` here. -/
def runForeverDelays (base maxDelay : ℚ) (subsNonempty : Bool) :
    List Attempt → ℚ → List ℚ
  | [], _ => []
  | a :: rest, delay =>
    match connect_once subsNonempty a with
    | .ok _ => runForeverDelays base maxDelay subsNonempty rest base
    | .error _ => delay :: runForeverDelays base maxDelay subsNonempty rest (min (delay * 2) maxDelay)

/-! ### The flush poll loop (`OkxPublicWSClient._flush_loop`) -/

/-- One tick of `_flush_loop`'s body (lines 160–166 of `src/okx.py`): given
the stored `_last_flush_ms` and the fresh reading `now_ms`, returns whether
`flush_buffers` is invoked on this tick and the updated `_last_flush_ms`. -/
def flushStep (rotate_ms : Int) (last_flush_ms now_ms : Int) : Bool × Int :=
  let last := if last_flush_ms = 0 then now_ms else last_flush_ms
  if rotate_ms ≤ now_ms - last then (true, now_ms) else (false, last)

/-- `_flush_loop` run over a finite trace of clock readings (one per
1-second poll tick), starting from stored `_last_flush_ms = last`; returns,
for each tick, whether a flush was triggered at that tick. -/
def flushTrace (rotate_ms : Int) : List Int → Int → List Bool
  | [], _ => []
  | now :: rest, last =>
    let s := flushStep rotate_ms last now
    s.1 :: flushTrace rotate_ms rest s.2

/-- Declarative reference point for the rotation claim: given the ticks
paired with whether a flush happened at each, the time of the latest flush,
or the default `d` when none has happened. -/
def lastTrueTime : List (Int × Bool) → Int → Int
  | [], d => d
  | (t, b) :: rest, d => lastTrueTime rest (if b then t else d)

/-! ## Helper lemmas about the buffer store -/

theorem bufGet_nil (K : BufferKey) : bufGet [] K = [] := rfl

theorem bufGet_cons (k : BufferKey) (m : List Envelope) (rest : Buffers) (K : BufferKey) :
    bufGet ((k, m) :: rest) K = if k = K then m else bufGet rest K := by
  by_cases h : k = K <;> simp [bufGet, List.find?_cons, h]

theorem bufMem_cons (k : BufferKey) (m : List Envelope) (rest : Buffers) (K : BufferKey) :
    bufMem ((k, m) :: rest) K = ((k == K) || bufMem rest K) := by
  simp [bufMem, List.any_cons]

theorem bufSet_cons (k : BufferKey) (m : List Envelope) (rest : Buffers)
    (K : BufferKey) (v : List Envelope) :
    bufSet ((k, m) :: rest) K v = (if k = K then (k, v) else (k, m)) :: bufSet rest K v := by
  by_cases h : k = K <;> simp [bufSet, h]

theorem bufGet_of_not_mem (bs : Buffers) (K : BufferKey) (h : bufMem bs K = false) :
    bufGet bs K = [] := by
  induction bs with
  | nil => rfl
  | cons p rest ih =>
    obtain ⟨k, m⟩ := p
    rw [bufMem_cons, Bool.or_eq_false_iff] at h
    rw [bufGet_cons, if_neg (by simpa using h.1)]
    exact ih h.2

theorem bufGet_append_single_ne (bs : Buffers) (k : BufferKey) (v : List Envelope)
    (K : BufferKey) (h : K ≠ k) : bufGet (bs ++ [(k, v)]) K = bufGet bs K := by
  induction bs with
  | nil =>
    rw [List.nil_append, bufGet_nil, bufGet_cons, if_neg (fun hh => h hh.symm), bufGet_nil]
  | cons p rest ih =>
    obtain ⟨a, m⟩ := p
    rw [List.cons_append, bufGet_cons, bufGet_cons, ih]

theorem bufGet_append_single_fresh (bs : Buffers) (k : BufferKey) (v : List Envelope)
    (h : bufMem bs k = false) : bufGet (bs ++ [(k, v)]) k = v := by
  induction bs with
  | nil => rw [List.nil_append, bufGet_cons, if_pos rfl]
  | cons p rest ih =>
    obtain ⟨a, m⟩ := p
    rw [bufMem_cons, Bool.or_eq_false_iff] at h
    rw [List.cons_append, bufGet_cons, if_neg (by simpa using h.1)]
    exact ih h.2

theorem bufMem_append_single_self (bs : Buffers) (k : BufferKey) (v : List Envelope) :
    bufMem (bs ++ [(k, v)]) k = true := by
  simp [bufMem]

theorem bufGet_bufSet_ne (bs : Buffers) (k : BufferKey) (v : List Envelope)
    (K : BufferKey) (h : K ≠ k) : bufGet (bufSet bs k v) K = bufGet bs K := by
  induction bs with
  | nil => rfl
  | cons p rest ih =>
    obtain ⟨a, m⟩ := p
    rw [bufSet_cons]
    by_cases ha : a = k
    · rw [if_pos ha, bufGet_cons, bufGet_cons,
        if_neg (fun hh => h (hh.symm.trans ha)), if_neg (fun hh => h (hh.symm.trans ha))]
      exact ih
    · rw [if_neg ha, bufGet_cons, bufGet_cons]
      by_cases hK : a = K
      · rw [if_pos hK, if_pos hK]
      · rw [if_neg hK, if_neg hK]
        exact ih

theorem bufGet_bufSet_self (bs : Buffers) (k : BufferKey) (v : List Envelope)
    (h : bufMem bs k = true) : bufGet (bufSet bs k v) k = v := by
  induction bs with
  | nil => simp [bufMem] at h
  | cons p rest ih =>
    obtain ⟨a, m⟩ := p
    rw [bufSet_cons]
    by_cases ha : a = k
    · rw [if_pos ha, bufGet_cons, if_pos ha]
    · rw [bufMem_cons] at h
      have hrest : bufMem rest k = true := by
        rcases Bool.or_eq_true_iff.mp h with h1 | h2
        · exact absurd (by simpa using h1) ha
        · exact h2
      rw [if_neg ha, bufGet_cons, if_neg ha]
      exact ih hrest

/-! ## Helper lemmas about `flush_buffers` -/

theorem flush_buffers_nil (fmt : Int → String) (dir : String) (writeOk : String → Bool)
    (now : Int) : flush_buffers fmt dir writeOk [] now = ([], []) := rfl

theorem flush_buffers_cons (fmt : Int → String) (dir : String) (writeOk : String → Bool)
    (k : BufferKey) (m : List Envelope) (rest : Buffers) (now : Int) :
    flush_buffers fmt dir writeOk ((k, m) :: rest) now =
      if m.isEmpty then
        ((k, m) :: (flush_buffers fmt dir writeOk rest now).1,
         (flush_buffers fmt dir writeOk rest now).2)
      else
        ((k, []) :: (flush_buffers fmt dir writeOk rest now).1,
         if writeOk (build_filename dir k.1 k.2 (fmt now)) then
           ⟨k, build_filename dir k.1 k.2 (fmt now), m⟩ ::
             (flush_buffers fmt dir writeOk rest now).2
         else (flush_buffers fmt dir writeOk rest now).2) := by
  by_cases hm : m.isEmpty <;> simp [flush_buffers, hm]

/-- After a flush, every entry of the buffer store is the empty sequence:
non-empty entries are cleared by the `finally:` clause whether or not the
write succeeded, and entries that were empty are skipped and stay empty. -/
theorem flush_buffers_fst (fmt : Int → String) (dir : String) (writeOk : String → Bool)
    (bufs : Buffers) (now : Int) :
    (flush_buffers fmt dir writeOk bufs now).1 = bufs.map (fun p => (p.1, [])) := by
  induction bufs with
  | nil => rfl
  | cons p rest ih =>
    obtain ⟨k, m⟩ := p
    rw [flush_buffers_cons]
    by_cases hm : m.isEmpty
    · rw [if_pos hm]
      have hm' : m = [] := List.isEmpty_iff.mp hm
      simp [hm', ih]
    · rw [if_neg hm]
      simp [ih]

/-- The successful writes of a flush, characterized entry by entry: one
write event per non-empty entry whose write succeeded, in iteration order. -/
theorem flush_buffers_snd (fmt : Int → String) (dir : String) (writeOk : String → Bool)
    (bufs : Buffers) (now : Int) :
    (flush_buffers fmt dir writeOk bufs now).2 =
      bufs.filterMap (fun p =>
        if p.2.isEmpty then none
        else if writeOk (build_filename dir p.1.1 p.1.2 (fmt now)) then
          some ⟨p.1, build_filename dir p.1.1 p.1.2 (fmt now), p.2⟩
        else none) := by
  induction bufs with
  | nil => rfl
  | cons p rest ih =>
    obtain ⟨k, m⟩ := p
    rw [flush_buffers_cons, List.filterMap_cons]
    by_cases hm : m.isEmpty
    · simp [hm, ih]
    · by_cases hw : writeOk (build_filename dir k.1 k.2 (fmt now)) <;> simp [hm, hw, ih]

/-- Every write event of a flush comes from some buffer entry: its key is a
key of the store, and its content is that entry's pre-flush sequence. -/
theorem flush_buffers_event_mem (fmt : Int → String) (dir : String) (writeOk : String → Bool)
    (bufs : Buffers) (now : Int) (e : WriteEvent)
    (he : e ∈ (flush_buffers fmt dir writeOk bufs now).2) :
    (e.key, e.content) ∈ bufs := by
  rw [flush_buffers_snd] at he
  rcases List.mem_filterMap.mp he with ⟨p, hp, hpe⟩
  by_cases hm : p.2.isEmpty
  · simp [hm] at hpe
  · by_cases hw : writeOk (build_filename dir p.1.1 p.1.2 (fmt now))
    · rw [if_neg hm, if_pos hw, Option.some_inj] at hpe
      subst hpe
      simpa using hp
    · simp [hm, hw] at hpe

/-! ## Helper lemmas about `_handle_message` -/

/-- If `_handle_message` returns without raising, it either left the buffer
store unchanged, or appended exactly one envelope — whose `source` field is
`"WS"` — to the entry of one key, creating that entry first if absent. -/
theorem handle_message_ok_cases (msg? : Option JValue) (ts : String) (bufs bufs' : Buffers)
    (h : handle_message msg? ts bufs = .ok bufs') :
    bufs' = bufs ∨
    ∃ (key : BufferKey) (payload : Envelope),
      payload.source = "WS" ∧
      bufs' = bufAppend (if bufMem bufs key then bufs else bufs ++ [(key, [])]) key payload := by
  cases msg? with
  | none =>
    left
    have h' : (Except.ok bufs : Except String Buffers) = .ok bufs' := by
      simpa [handle_message] using h
    exact (Except.ok.inj h').symm
  | some msg =>
    cases msg with
    | obj mfs =>
      simp only [handle_message, pyGet] at h
      by_cases hc : isControlEvent (JValue.obj mfs)
      · rw [if_pos hc] at h
        exact Or.inl (Except.ok.inj h).symm
      · rw [if_neg hc] at h
        by_cases ht : (!truthy (lookupField mfs "arg") || !truthy (lookupField mfs "data")) = true
        · rw [if_pos ht] at h
          exact Or.inl (Except.ok.inj h).symm
        · rw [if_neg ht] at h
          cases harg : lookupField mfs "arg" with
          | obj afs =>
            rw [harg] at h
            simp only [pyGet] at h
            right
            exact ⟨(lookupField afs "instId", lookupField afs "channel"), _, rfl,
              (Except.ok.inj h).symm⟩
          | null => rw [harg] at h; simp [pyGet] at h
          | bool b => rw [harg] at h; simp [pyGet] at h
          | num n => rw [harg] at h; simp [pyGet] at h
          | str s => rw [harg] at h; simp [pyGet] at h
          | arr xs => rw [harg] at h; simp [pyGet] at h
    | null => simp [handle_message, pyGet, isControlEvent] at h
    | bool b => simp [handle_message, pyGet, isControlEvent] at h
    | num n => simp [handle_message, pyGet, isControlEvent] at h
    | str s => simp [handle_message, pyGet, isControlEvent] at h
    | arr xs => simp [handle_message, pyGet, isControlEvent] at h

/-- A parsed object whose `event` field is one of the three control values
is discarded before the `arg`/`data` extraction is reached. -/
theorem handle_message_control (mfs : List (String × JValue)) (ts : String) (bufs : Buffers)
    (hc : isControlEvent (.obj mfs) = true) :
    handle_message (some (.obj mfs)) ts bufs = .ok bufs := by
  simp [handle_message, hc]

/-! ## Helper lemmas about the reconnect loop and the flush poll loop -/

theorem min_mul_right (y c a : ℚ) (ha : 1 ≤ a) (hc : 0 ≤ c) :
    min (min y c * a) c = min (y * a) c := by
  rcases le_total y c with h | h
  · rw [min_eq_left h]
  · have ha0 : (0 : ℚ) ≤ a := le_trans zero_le_one ha
    have h1 : c ≤ c * a := le_mul_of_one_le_right hc ha
    have h2 : c * a ≤ y * a := mul_le_mul_of_nonneg_right h ha0
    rw [min_eq_right h, min_eq_right h1, min_eq_right (le_trans h1 h2)]

/-- Closed form of the backoff delays over `n` consecutive failed attempts,
starting from current delay `x`: the `i`-th sleep lasts `min (x * 2 ^ i) maxDelay`. -/
theorem runForeverDelays_replicate (base maxDelay : ℚ) (hmax : 0 ≤ maxDelay) (n : ℕ) :
    ∀ x : ℚ, x ≤ maxDelay →
      runForeverDelays base maxDelay true (List.replicate n .connectFail) x
        = (List.range n).map (fun i => min (x * 2 ^ i) maxDelay) := by
  induction n with
  | zero => intro x _; rfl
  | succ n ih =>
    intro x hx
    rw [List.replicate_succ, List.range_succ_eq_map]
    have hstep : runForeverDelays base maxDelay true
          (.connectFail :: List.replicate n .connectFail) x
        = x :: runForeverDelays base maxDelay true (List.replicate n .connectFail)
            (min (x * 2) maxDelay) := by
      simp [runForeverDelays, connect_once, attemptRaises]
    rw [hstep, ih (min (x * 2) maxDelay) (min_le_right _ _)]
    simp only [List.map_cons, List.map_map]
    congr 1
    · rw [pow_zero, mul_one, min_eq_left hx]
    · refine List.map_congr_left (fun i _ => ?_)
      show min (min (x * 2) maxDelay * 2 ^ i) maxDelay = min (x * 2 ^ (i + 1)) maxDelay
      rw [min_mul_right _ _ _ (one_le_pow₀ (by norm_num)) hmax, mul_assoc,
        ← pow_succ' (2 : ℚ) i]

theorem flushTrace_length (rotate : Int) (ticks : List Int) (r : Int) :
    (flushTrace rotate ticks r).length = ticks.length := by
  induction ticks generalizing r with
  | nil => rfl
  | cons t rest ih => simp [flushTrace, ih]

theorem flushTrace_cons_pos (rotate : Int) (t : Int) (rest : List Int) (r : Int)
    (hr : r ≠ 0) :
    flushTrace rotate (t :: rest) r
      = decide (rotate ≤ t - r) :: flushTrace rotate rest (if rotate ≤ t - r then t else r) := by
  by_cases hd : rotate ≤ t - r <;> simp [flushTrace, flushStep, hr, hd]

/-- Invariant of the poll loop: starting from a positive stored
`_last_flush_ms = r` and positive clock readings, a flush fires at tick `i`
exactly when that tick's reading is at least `rotate` past the latest
earlier flush (or past `r` when no flush has fired yet). -/
theorem flushTrace_spec_aux (rotate : Int) (ticks : List Int) :
    ∀ (r : Int), 0 < r → (∀ t ∈ ticks, 0 < t) →
      ∀ i, i < ticks.length →
        ((flushTrace rotate ticks r).getD i false = true ↔
          rotate ≤ ticks.getD i 0 -
            lastTrueTime ((ticks.zip (flushTrace rotate ticks r)).take i) r) := by
  induction ticks with
  | nil => intro r _ _ i hi; simp at hi
  | cons t rest ih =>
    intro r hr hpos i hi
    rw [flushTrace_cons_pos rotate t rest r (by omega)]
    cases i with
    | zero => simp [lastTrueTime]
    | succ i =>
      have h0t : 0 < t := hpos t (by simp)
      have hr' : 0 < (if rotate ≤ t - r then t else r) := by
        split <;> assumption
      have hmem : ∀ x ∈ rest, 0 < x := fun x hx => hpos x (List.mem_cons_of_mem _ hx)
      have hIH := ih (if rotate ≤ t - r then t else r) hr' hmem i (by simpa using hi)
      by_cases hd : rotate ≤ t - r <;>
        simpa [List.zip_cons_cons, List.take_succ_cons, lastTrueTime, hd] using hIH

theorem bufGet_map_clear (bufs : Buffers) (K : BufferKey) :
    bufGet (bufs.map (fun p => (p.1, ([] : List Envelope)))) K = [] := by
  induction bufs with
  | nil => rfl
  | cons p rest ih =>
    obtain ⟨k, m⟩ := p
    rw [List.map_cons, bufGet_cons]
    by_cases h : k = K
    · rw [if_pos h]
    · rw [if_neg h]; exact ih

theorem bufSet_append_fresh (bufs : Buffers) (k : BufferKey) (v w : List Envelope)
    (h : bufMem bufs k = false) :
    bufSet (bufs ++ [(k, v)]) k w = bufs ++ [(k, w)] := by
  induction bufs with
  | nil => simp [bufSet]
  | cons p rest ih =>
    obtain ⟨a, m⟩ := p
    rw [bufMem_cons, Bool.or_eq_false_iff] at h
    rw [List.cons_append, bufSet_cons, if_neg (by simpa using h.1), List.cons_append,
      ih h.2]

theorem bufAppend_fresh (bufs : Buffers) (k : BufferKey) (e : Envelope)
    (h : bufMem bufs k = false) :
    bufAppend (bufs ++ [(k, [])]) k e = bufs ++ [(k, [e])] := by
  unfold bufAppend
  rw [bufGet_append_single_fresh _ _ _ h, List.nil_append, bufSet_append_fresh _ _ _ _ h]

/-! ## Claim theorems -/

/-- C1 (counterexample): the claim says a failed write leaves the key's
in-memory sequence intact for retry. In `flush_buffers` the reset
`buffers[(inst_id, channel)] = []` sits in a `finally:` clause, so it runs
on the failure path too: flushing a one-key store whose write fails leaves
that key's sequence empty — not equal to its pre-flush one-element
contents — so the buffered envelope is discarded, not retried. -/
theorem c1_flush_failure_discards_cex :
    bufGet (flush_buffers (fun _ => "20240101T000000") "out" (fun _ => false)
        [((.str "BTC-USDT", .str "trades"),
          [⟨.str "BTC-USDT", "2024-01-01T00:00:00Z", "WS", .str "trades", .arr [.num 1], none⟩])]
        0).1 (.str "BTC-USDT", .str "trades") = []
    ∧ ([] : List Envelope) ≠
        [⟨.str "BTC-USDT", "2024-01-01T00:00:00Z", "WS", .str "trades", .arr [.num 1], none⟩] :=
  ⟨rfl, by simp⟩

/-- C1 (amended): a write failure for one key is isolated — every other
non-empty key whose own write succeeds is still written in the same
cycle — but the failed key's sequence is NOT left intact: after a flush
every entry of the store is the empty sequence, whether or not its write
succeeded, so the buffered envelopes of a failed key are discarded. -/
theorem c1_flush_failure_clears_but_isolates
    (fmt : Int → String) (dir : String) (writeOk : String → Bool)
    (bufs : Buffers) (now : Int) :
    (∀ p ∈ (flush_buffers fmt dir writeOk bufs now).1, p.2 = ([] : List Envelope))
    ∧ (∀ p ∈ bufs, p.2 ≠ [] →
        writeOk (build_filename dir p.1.1 p.1.2 (fmt now)) = true →
        (⟨p.1, build_filename dir p.1.1 p.1.2 (fmt now), p.2⟩ : WriteEvent)
          ∈ (flush_buffers fmt dir writeOk bufs now).2) := by
  constructor
  · intro p hp
    rw [flush_buffers_fst] at hp
    rcases List.mem_map.mp hp with ⟨q, _, rfl⟩
    rfl
  · intro p hp hne hok
    rw [flush_buffers_snd]
    refine List.mem_filterMap.mpr ⟨p, hp, ?_⟩
    rw [if_neg (by simpa [List.isEmpty_iff] using hne), if_pos hok]

/-- Witness for C1 (amended): with two non-empty keys where only the write
for key `("B", "t")` succeeds (the one for `("A", "t")` fails), the flush
still emits the file write for `("B", "t")`. -/
theorem c1_flush_failure_clears_but_isolates_witness :
    (⟨(.str "B", .str "t"), "out/B_t_TS.json",
      [⟨.str "B", "ts", "WS", .str "t", .null, none⟩]⟩ : WriteEvent)
      ∈ (flush_buffers (fun _ => "TS") "out" (fun p => p == "out/B_t_TS.json")
          [((.str "A", .str "t"), [⟨.str "A", "ts", "WS", .str "t", .null, none⟩]),
           ((.str "B", .str "t"), [⟨.str "B", "ts", "WS", .str "t", .null, none⟩])] 7).2 :=
  (c1_flush_failure_clears_but_isolates (fun _ => "TS") "out"
      (fun p => p == "out/B_t_TS.json")
      [((.str "A", .str "t"), [⟨.str "A", "ts", "WS", .str "t", .null, none⟩]),
       ((.str "B", .str "t"), [⟨.str "B", "ts", "WS", .str "t", .null, none⟩])] 7).2
    ((.str "B", .str "t"), [⟨.str "B", "ts", "WS", .str "t", .null, none⟩])
    (by simp) (by simp) (by rfl)

/-- C2: with an empty subscription registry, `_connect_once` raises
`AssertionError` at its very first statement — but `run_forever` wraps the
call in a bare `except Exception:`, which catches `AssertionError` exactly
like a transient transport failure. Hence over any finite prefix of loop
iterations the loop performs one backoff sleep per iteration and keeps
retrying: the fatal configuration error is swallowed and retried forever
instead of being reported once outside the reconnect loop. -/
theorem c2_empty_subscriptions_retried_forever (attempts : List Attempt) (a : Attempt)
    (d : ℚ) :
    connect_once false a = .error "AssertionError"
    ∧ (runForeverDelays 1 30 false attempts d).length = attempts.length := by
  refine ⟨rfl, ?_⟩
  induction attempts generalizing d with
  | nil => rfl
  | cons x rest ih => simp [runForeverDelays, connect_once, ih]

/-- C3 (counterexample): an attempt whose subscribe handshake succeeded but
which then ends in a transport error raises out of `_connect_once`, so the
`delay = base` reset on the success path is skipped. With base 1 and max
30, the attempt trace `[subscribedThenError, connectFail]` produces sleeps
`[1, 2]`: the delay applied to the failure following the successful
handshake is 2, not the base 1 the claim requires. -/
theorem c3_handshake_then_error_no_reset_cex :
    handshakeSucceeded .subscribedThenError = true
    ∧ runForeverDelays 1 30 true [.subscribedThenError, .connectFail] 1 = [1, 2]
    ∧ (2 : ℚ) ≠ 1 := by
  refine ⟨rfl, ?_, by norm_num⟩
  norm_num [runForeverDelays, connect_once, attemptRaises]

/-- C3 (amended): the backoff delay resets to the base delay exactly when a
connection attempt returns cleanly (receive loop ended without raising):
after such an attempt the next failure sleeps the base delay. An attempt
that raises — even one whose subscribe handshake succeeded before the
transport error — does not reset the delay: that failure sleeps the current
delay and the following failure sleeps the doubled (capped) delay. -/
theorem c3_reset_only_on_clean_return (base maxDelay d : ℚ) (a b : Attempt)
    (rest rest' : List Attempt) :
    (attemptRaises a = false → attemptRaises b = true →
      (runForeverDelays base maxDelay true (a :: b :: rest) d).headD 0 = base)
    ∧ (attemptRaises a = true → attemptRaises b = true → handshakeSucceeded a = true →
      (runForeverDelays base maxDelay true (a :: b :: rest') d).take 2
        = [d, min (d * 2) maxDelay]) := by
  constructor
  · intro ha hb
    simp [runForeverDelays, connect_once, ha, hb]
  · intro ha hb _
    simp [runForeverDelays, connect_once, ha, hb]

/-- Witness for C3 (amended): after a clean close the next failure sleeps
the base delay 1 even though the current delay was 16; after a
handshake-then-transport-error attempt with current delay 8 the sleeps are
8 then 16 — no reset. -/
theorem c3_reset_only_on_clean_return_witness :
    (runForeverDelays 1 30 true
        [.subscribedCleanClose, .connectFail, .connectFail] 16).headD 0 = 1
    ∧ (runForeverDelays 1 30 true
        [.subscribedThenError, .connectFail, .connectFail] 8).take 2 = [8, 16] := by
  constructor
  · exact (c3_reset_only_on_clean_return 1 30 16 .subscribedCleanClose .connectFail
      [.connectFail] [.connectFail]).1 rfl rfl
  · have h := (c3_reset_only_on_clean_return 1 30 8 .subscribedThenError .connectFail
      [.connectFail] [.connectFail]).2 rfl rfl rfl
    rw [h]
    norm_num

/-- C4: unparseable frames and parsed dict frames missing the `arg`
descriptor are indeed dropped silently with the buffer store unchanged, but
a frame that parses to a non-dict JSON value — e.g. the JSON text `[1]`,
which also lacks the argument descriptor and payload — makes
`_handle_message` call `.get` on a non-dict and raise `AttributeError`
(line 179 of `src/okx.py` guards the `event` check with
`isinstance(msg, dict)` but not the `msg.get` calls). The exception
escapes `_handle_message`, tears down the receive loop and is counted as a
connection failure, contradicting the claim. -/
theorem c4_nondict_incomplete_frame_raises (ts : String) (bufs : Buffers) :
    handle_message none ts bufs = .ok bufs
    ∧ handle_message (some (.obj [("data", .arr [.num 1])])) ts bufs = .ok bufs
    ∧ handle_message (some (.arr [.num 1])) ts bufs = .error "AttributeError" :=
  ⟨rfl, rfl, rfl⟩

/-- C6: with base delay 1 and max delay 30, the successive backoff sleeps
over any run of consecutive failed connection attempts are
1, 2, 4, 8, 16, 30, 30, … — the `i`-th sleep is `min (2 ^ i) 30`. -/
theorem c6_backoff_delay_sequence (n : ℕ) :
    runForeverDelays 1 30 true (List.replicate 7 .connectFail) 1 = [1, 2, 4, 8, 16, 30, 30]
    ∧ runForeverDelays 1 30 true (List.replicate n .connectFail) 1
        = (List.range n).map (fun i => min ((2 : ℚ) ^ i) 30) := by
  constructor
  · norm_num [runForeverDelays, connect_once, attemptRaises, List.replicate]
  · rw [runForeverDelays_replicate 1 30 (by norm_num) n 1 (by norm_num)]
    simp [one_mul]

/-- C5: for every key `K` whose buffered sequence is non-empty at flush
time and whose write succeeds, the flush performs exactly one file write
for `K` — at the filename built from `K` and the flush timestamp, with
content equal to the pre-flush buffered sequence — and immediately
afterwards the in-memory sequence for `K` is empty. (Keys of a Python dict
are unique, hence the `Nodup` hypothesis.) -/
theorem c5_flush_nonempty_writes_once_and_clears
    (fmt : Int → String) (dir : String) (writeOk : String → Bool)
    (bufs : Buffers) (now : Int) (K : BufferKey)
    (hnodup : (bufs.map Prod.fst).Nodup)
    (hne : bufGet bufs K ≠ [])
    (hok : writeOk (build_filename dir K.1 K.2 (fmt now)) = true) :
    (flush_buffers fmt dir writeOk bufs now).2.filter (fun e => e.key == K)
      = [⟨K, build_filename dir K.1 K.2 (fmt now), bufGet bufs K⟩]
    ∧ bufGet (flush_buffers fmt dir writeOk bufs now).1 K = [] := by
  have hfilter : (flush_buffers fmt dir writeOk bufs now).2.filter (fun e => e.key == K)
      = [⟨K, build_filename dir K.1 K.2 (fmt now), bufGet bufs K⟩] := by
    induction bufs with
    | nil => exact absurd rfl hne
    | cons p rest ih =>
      obtain ⟨k, m⟩ := p
      rw [List.map_cons, List.nodup_cons] at hnodup
      rw [flush_buffers_cons]
      by_cases hkK : k = K
      · subst hkK
        rw [bufGet_cons, if_pos rfl] at hne ⊢
        have hmE : ¬ (m.isEmpty = true) := by simpa [List.isEmpty_iff] using hne
        rw [if_neg hmE]
        dsimp only
        rw [if_pos hok, List.filter_cons_of_pos (by simp)]
        have hnil : (flush_buffers fmt dir writeOk rest now).2.filter
            (fun e => e.key == k) = [] := by
          refine List.filter_eq_nil_iff.mpr (fun e he => ?_)
          have hmem := flush_buffers_event_mem fmt dir writeOk rest now e he
          have hkeymem : e.key ∈ rest.map Prod.fst :=
            List.mem_map.mpr ⟨(e.key, e.content), hmem, rfl⟩
          simp only [beq_iff_eq]
          intro hek
          exact hnodup.1 (hek ▸ hkeymem)
        rw [hnil]
      · rw [bufGet_cons, if_neg hkK] at hne ⊢
        have hih := ih hnodup.2 hne
        by_cases hmE : m.isEmpty = true
        · rw [if_pos hmE]
          dsimp only
          exact hih
        · rw [if_neg hmE]
          dsimp only
          by_cases hw : writeOk (build_filename dir k.1 k.2 (fmt now)) = true
          · rw [if_pos hw, List.filter_cons_of_neg (by simp [hkK])]
            exact hih
          · rw [if_neg hw]
            exact hih
  exact ⟨hfilter, by rw [flush_buffers_fst]; exact bufGet_map_clear bufs K⟩

/-- Witness for C5: a two-key store where both writes succeed; the flush
writes exactly one file for key `("A", "t")` containing its pre-flush
sequence, and that key's entry is empty afterwards. -/
theorem c5_flush_nonempty_writes_once_and_clears_witness :
    (flush_buffers (fun _ => "TS") "out" (fun _ => true)
        [((.str "A", .str "t"), [⟨.str "A", "ts", "WS", .str "t", .null, none⟩]),
         ((.str "B", .str "t"), [⟨.str "B", "ts", "WS", .str "t", .null, none⟩])] 0).2.filter
        (fun e => e.key == ((.str "A", .str "t") : BufferKey))
      = [⟨(.str "A", .str "t"), "out/A_t_TS.json",
          [⟨.str "A", "ts", "WS", .str "t", .null, none⟩]⟩]
    ∧ bufGet (flush_buffers (fun _ => "TS") "out" (fun _ => true)
        [((.str "A", .str "t"), [⟨.str "A", "ts", "WS", .str "t", .null, none⟩]),
         ((.str "B", .str "t"), [⟨.str "B", "ts", "WS", .str "t", .null, none⟩])] 0).1
        (.str "A", .str "t") = [] :=
  c5_flush_nonempty_writes_once_and_clears (fun _ => "TS") "out" (fun _ => true)
    [((.str "A", .str "t"), [⟨.str "A", "ts", "WS", .str "t", .null, none⟩]),
     ((.str "B", .str "t"), [⟨.str "B", "ts", "WS", .str "t", .null, none⟩])] 0
    (.str "A", .str "t") (by decide) (by decide) rfl

/-- C7 (counterexample): the envelope built by `_handle_message` for a
stream-received data frame carries `source = "WS"`, not `source = "stream"`
as the claim states (the Python literal at line 196 of `src/okx.py` is
`"source": "WS"`; the REST snapshot writer likewise uses `"REST"`, not
`"snapshot"`). -/
theorem c7_source_field_cex :
    handle_message (some (.obj [("arg", .obj [("channel", .str "trades"),
        ("instId", .str "BTC-USDT")]), ("data", .arr [.num 1])]))
        "2024-01-01T00:00:00Z" []
      = .ok [((.str "BTC-USDT", .str "trades"),
          [⟨.str "BTC-USDT", "2024-01-01T00:00:00Z", "WS", .str "trades",
            .arr [.num 1], none⟩])]
    ∧ (⟨.str "BTC-USDT", "2024-01-01T00:00:00Z", "WS", .str "trades",
        .arr [.num 1], none⟩ : Envelope).source = "WS"
    ∧ ("WS" : String) ≠ "stream" :=
  ⟨rfl, rfl, by decide⟩

/-- C7 (amended): every envelope that `_handle_message` adds to the buffer
store carries `source = "WS"` (the implementation's literal tag for
stream-received frames, which the spec renders as `"stream"`): any envelope
found in the store after a successful `_handle_message` call was either
already there or has `source = "WS"`. -/
theorem c7_appended_envelope_source_WS (msg? : Option JValue) (ts : String)
    (bufs bufs' : Buffers) (h : handle_message msg? ts bufs = .ok bufs')
    (K : BufferKey) (e : Envelope) (he : e ∈ bufGet bufs' K) :
    e ∈ bufGet bufs K ∨ e.source = "WS" := by
  rcases handle_message_ok_cases msg? ts bufs bufs' h with rfl | ⟨key, payload, hsrc, rfl⟩
  · exact Or.inl he
  · by_cases hK : K = key
    · subst hK
      by_cases hm : bufMem bufs K = true
      · rw [if_pos hm] at he
        unfold bufAppend at he
        rw [bufGet_bufSet_self _ _ _ hm] at he
        rcases List.mem_append.mp he with h1 | h2
        · exact Or.inl h1
        · right; rw [List.mem_singleton.mp h2]; exact hsrc
      · have hm' : bufMem bufs K = false := by simpa using hm
        rw [if_neg hm] at he
        unfold bufAppend at he
        rw [bufGet_bufSet_self _ _ _ (bufMem_append_single_self bufs K []),
          bufGet_append_single_fresh _ _ _ hm'] at he
        right
        rw [show e = payload by simpa using he]
        exact hsrc
    · unfold bufAppend at he
      by_cases hm : bufMem bufs key = true
      · rw [if_pos hm, bufGet_bufSet_ne _ _ _ _ hK] at he
        exact Or.inl he
      · rw [if_neg hm, bufGet_bufSet_ne _ _ _ _ hK,
          bufGet_append_single_ne _ _ _ _ hK] at he
        exact Or.inl he

/-- Witness for C7 (amended): for a concrete data frame appended to an
empty store, the envelope found in the store satisfies the disjunction
(by its `source` being `"WS"`). -/
theorem c7_appended_envelope_source_WS_witness :
    (⟨.str "ETH-USDT", "T", "WS", .str "books", .arr [.num 2], none⟩ : Envelope)
      ∈ bufGet ([] : Buffers) (.str "ETH-USDT", .str "books")
    ∨ (⟨.str "ETH-USDT", "T", "WS", .str "books", .arr [.num 2], none⟩ : Envelope).source
        = "WS" :=
  c7_appended_envelope_source_WS
    (some (.obj [("arg", .obj [("channel", .str "books"), ("instId", .str "ETH-USDT")]),
      ("data", .arr [.num 2])])) "T" []
    [((.str "ETH-USDT", .str "books"),
      [⟨.str "ETH-USDT", "T", "WS", .str "books", .arr [.num 2], none⟩])]
    rfl (.str "ETH-USDT", .str "books")
    ⟨.str "ETH-USDT", "T", "WS", .str "books", .arr [.num 2], none⟩
    (by simp [bufGet, List.find?_cons])

/-- C8: in the poll loop of `_flush_loop`, with a positive rotation
interval and positive clock readings, a flush is triggered at a poll tick
exactly when that tick's reading is at least the rotation interval past the
latest earlier flush (or past the first tick's reading, which initializes
`_last_flush_ms`, when no flush has happened yet): no flush fires while the
elapsed time is below the interval, and the first tick at or past the
threshold fires one. -/
theorem c8_flush_exactly_at_rotation (rotate_ms : Int) (ticks : List Int)
    (hrot : 0 < rotate_ms) (hpos : ∀ t ∈ ticks, 0 < t)
    (i : ℕ) (hi : i < ticks.length) :
    ((flushTrace rotate_ms ticks 0).getD i false = true ↔
      rotate_ms ≤ ticks.getD i 0 -
        lastTrueTime ((ticks.zip (flushTrace rotate_ms ticks 0)).take i)
          (ticks.headD 0)) := by
  cases ticks with
  | nil => simp at hi
  | cons t rest =>
    have h0t : 0 < t := hpos t (by simp)
    have hstep : flushTrace rotate_ms (t :: rest) 0
        = false :: flushTrace rotate_ms rest t := by
      have hlt : ¬ rotate_ms ≤ (0 : Int) := by omega
      simp [flushTrace, flushStep, hlt]
    rw [hstep]
    cases i with
    | zero =>
      simp only [List.getD_cons_zero, List.take_zero, lastTrueTime, List.headD_cons,
        Bool.false_eq_true, false_iff]
      omega
    | succ i =>
      have hIH := flushTrace_spec_aux rotate_ms rest t h0t
        (fun x hx => hpos x (List.mem_cons_of_mem _ hx)) i (by simpa using hi)
      simpa [List.zip_cons_cons, List.take_succ_cons, lastTrueTime] using hIH

/-- Witness for C8: rotation interval 60000 ms, ticks at 1000, 2000, 61000,
61500 and 122000 ms; instantiated at tick index 2, the first tick 60000 ms
past the reference. -/
theorem c8_flush_exactly_at_rotation_witness :
    ((flushTrace 60000 [1000, 2000, 61000, 61500, 122000] 0).getD 2 false = true ↔
      (60000 : Int) ≤ ([1000, 2000, 61000, 61500, 122000] : List Int).getD 2 0 -
        lastTrueTime ((([1000, 2000, 61000, 61500, 122000] : List Int).zip
          (flushTrace 60000 [1000, 2000, 61000, 61500, 122000] 0)).take 2)
          (([1000, 2000, 61000, 61500, 122000] : List Int).headD 0)) :=
  c8_flush_exactly_at_rotation 60000 [1000, 2000, 61000, 61500, 122000]
    (by norm_num) (by decide) 2 (by norm_num)

/-- C9: a parsed frame that is an object whose `event` field is `"pong"`,
`"subscribe"` or `"error"` is discarded by the check at line 176 of
`src/okx.py` before any buffer access: handling it returns the buffer
store unchanged, whatever other fields (including `arg` and `data`) the
frame carries. -/
theorem c9_control_event_frames_never_append (mfs : List (String × JValue))
    (ts : String) (bufs : Buffers)
    (h : lookupField mfs "event" = .str "pong" ∨ lookupField mfs "event" = .str "subscribe"
        ∨ lookupField mfs "event" = .str "error") :
    handle_message (some (.obj mfs)) ts bufs = .ok bufs := by
  apply handle_message_control
  rcases h with h | h | h <;> simp [isControlEvent, h]

/-- Witness for C9: an `error` control frame that also carries a complete
`arg` descriptor and a `data` payload still appends nothing. -/
theorem c9_control_event_frames_never_append_witness :
    handle_message (some (.obj [("event", .str "error"),
        ("arg", .obj [("channel", .str "trades"), ("instId", .str "BTC-USDT")]),
        ("data", .arr [.num 1])])) "T" [] = .ok [] :=
  c9_control_event_frames_never_append
    [("event", .str "error"),
     ("arg", .obj [("channel", .str "trades"), ("instId", .str "BTC-USDT")]),
     ("data", .arr [.num 1])] "T" [] (Or.inr (Or.inr rfl))

/-- C10: a parsed data frame whose `arg` object is non-empty (hence truthy)
but lacks the `channel` and/or `instId` field is not dropped:
`arg.get(...)` yields `None` for the missing field, so `_handle_message`
appends an envelope whose instrument and/or channel is null under the
partially-null key — creating a fresh buffer store entry for it when the
key is new — and a later flush with a succeeding write emits a file write
for exactly that key (whose filename renders the null components as
`"None"`). -/
theorem c10_missing_arg_fields_null_key (msg : JValue) (afs : List (String × JValue))
    (d act : JValue) (ts : String) (bufs : Buffers)
    (fmt : Int → String) (dir : String) (writeOk : String → Bool) (now : Int)
    (hctl : isControlEvent msg = false)
    (harg : pyGet msg "arg" = .ok (.obj afs))
    (hdata : pyGet msg "data" = .ok d)
    (hact : pyGet msg "action" = .ok act)
    (hne : afs ≠ [])
    (hd : truthy d = true)
    (hkey : lookupField afs "channel" = .null ∨ lookupField afs "instId" = .null)
    (hfresh : bufMem bufs (lookupField afs "instId", lookupField afs "channel") = false)
    (hok : writeOk (build_filename dir (lookupField afs "instId")
        (lookupField afs "channel") (fmt now)) = true) :
    handle_message (some msg) ts bufs
      = .ok (bufs ++ [((lookupField afs "instId", lookupField afs "channel"),
          [⟨lookupField afs "instId", ts, "WS", lookupField afs "channel", d,
            if act = .null then none else some act⟩])])
    ∧ (⟨(lookupField afs "instId", lookupField afs "channel"),
          build_filename dir (lookupField afs "instId") (lookupField afs "channel") (fmt now),
          [⟨lookupField afs "instId", ts, "WS", lookupField afs "channel", d,
            if act = .null then none else some act⟩]⟩ : WriteEvent)
        ∈ (flush_buffers fmt dir writeOk
            (bufs ++ [((lookupField afs "instId", lookupField afs "channel"),
              [⟨lookupField afs "instId", ts, "WS", lookupField afs "channel", d,
                if act = .null then none else some act⟩])]) now).2 := by
  cases msg with
  | obj mfs =>
    have harg' : lookupField mfs "arg" = .obj afs := by
      have := harg; simp only [pyGet, Except.ok.injEq] at this; exact this
    have hdata' : lookupField mfs "data" = d := by
      have := hdata; simp only [pyGet, Except.ok.injEq] at this; exact this
    have hact' : lookupField mfs "action" = act := by
      have := hact; simp only [pyGet, Except.ok.injEq] at this; exact this
    constructor
    · simp only [handle_message, pyGet, harg', hdata', hact']
      have htarg : truthy (.obj afs) = true := by simp [truthy, hne]
      rw [if_neg (by simp [hctl]), if_neg (by simp [htarg, hd])]
      rw [if_neg (by simp [hfresh])]
      rw [bufAppend_fresh bufs _ _ hfresh]
    · rw [flush_buffers_snd]
      refine List.mem_filterMap.mpr
        ⟨((lookupField afs "instId", lookupField afs "channel"),
          [⟨lookupField afs "instId", ts, "WS", lookupField afs "channel", d,
            if act = .null then none else some act⟩]),
         List.mem_append_right _ (by simp), ?_⟩
      rw [if_neg (by simp), if_pos hok]
  | null => simp [pyGet] at harg
  | bool b => simp [pyGet] at harg
  | num n => simp [pyGet] at harg
  | str s => simp [pyGet] at harg
  | arr xs => simp [pyGet] at harg

/-- Witness for C10: a frame with a non-empty `arg` lacking both `channel`
and `instId`, handled against an empty store, creates the key
`(null, null)`, and flushing writes the file `out/None_None_TS.json`
containing that envelope. -/
theorem c10_missing_arg_fields_null_key_witness :
    handle_message (some (.obj [("arg", .obj [("foo", .str "x")]),
        ("data", .arr [.num 1])])) "T" []
      = .ok [(((.null : JValue), (.null : JValue)),
          [⟨.null, "T", "WS", .null, .arr [.num 1],
            if (JValue.null : JValue) = .null then none else some .null⟩])]
    ∧ (⟨((.null : JValue), (.null : JValue)),
          build_filename "out" (lookupField [("foo", JValue.str "x")] "instId")
            (lookupField [("foo", JValue.str "x")] "channel") ((fun _ => "TS") (0 : Int)),
          [⟨.null, "T", "WS", .null, .arr [.num 1],
            if (JValue.null : JValue) = .null then none else some .null⟩]⟩ : WriteEvent)
        ∈ (flush_buffers (fun _ => "TS") "out" (fun _ => true)
            ([] ++ [(((.null : JValue), (.null : JValue)),
              [⟨.null, "T", "WS", .null, .arr [.num 1],
                if (JValue.null : JValue) = .null then none else some .null⟩])]) 0).2 :=
  c10_missing_arg_fields_null_key
    (.obj [("arg", .obj [("foo", .str "x")]), ("data", .arr [.num 1])])
    [("foo", .str "x")] (.arr [.num 1]) .null "T" []
    (fun _ => "TS") "out" (fun _ => true) 0
    rfl rfl rfl rfl (by simp) rfl (Or.inl rfl) rfl rfl

end OkxSpider
